import Mathlib

/-!
Verification of the MQTT adapter core of this repository
(`src/mqtt_adapter.rs` and `src/smart_adapter.rs`).

Bytes are modelled as `Nat` (the Rust code works on `u8` buffers; every byte
the code itself constructs is below 256, and the bit operations `&&& 127`,
`&&& 128`, `||| 128` are translated literally).  Byte streams are `List Nat`.
Fallible code returns `Except AdapterError`; a Rust panic (out-of-bounds
index) is modelled by `Option`, with `none` standing for the panic.
-/

deriving instance DecidableEq for Except

/-- The `MqttVersion` enum of `src/smart_adapter.rs` (lines 10-14). -/
inductive MqttVersion
  | V310
  | V311
  | V500
deriving DecidableEq

/-- The error cases the two adapter modules can produce.  Each constructor
corresponds to one `std::io::Error` construction site in the source:
`expectedConnect` = "Expected CONNECT packet", `invalidRemainingLength` =
"Invalid remaining length", `connectTooShort` = "CONNECT packet too short",
`invalidConnect` = "Invalid CONNECT packet", `unknownProtocol` =
"Unknown MQTT protocol {magic}, level {level}", `unknownMQIsdpVersion` =
"Unknown MQIsdp version", and `connectionClosed` = a failed `read_exact`
(peer disconnected mid-frame). -/
inductive AdapterError
  | expectedConnect
  | invalidRemainingLength
  | connectTooShort
  | invalidConnect
  | unknownProtocol (magic : List Nat) (level : Nat)
  | unknownMQIsdpVersion (level : Nat)
  | connectionClosed
deriving DecidableEq

/-- The byte string `b"MQIsdp"` (ASCII). -/
def MQIsdp_name : List Nat := [77, 81, 73, 115, 100, 112]

/-- The byte string `b"MQTT"` (ASCII). -/
def MQTT_name : List Nat := [77, 81, 84, 84]

/-- Loop body of `write_remaining_length` (`src/smart_adapter.rs` lines
241-258): emit `length % 128` (with the high bit ORed in when a further byte
follows), divide by 128, repeat until the quotient is zero.  The `fuel`
argument only bounds the recursion; since `length / 128 < length` whenever
the loop continues, `fuel = length` always suffices (proved by
`write_remaining_length_fuel_congr` below). -/
def write_remaining_length_fuel : Nat → Nat → List Nat
  | 0, length => [length % 128]
  | fuel + 1, length =>
    if 0 < length / 128 then
      (length % 128 ||| 128) :: write_remaining_length_fuel fuel (length / 128)
    else
      [length % 128]

/-- `write_remaining_length` of both adapter modules, as the byte sequence it
writes to the stream. -/
def write_remaining_length (length : Nat) : List Nat :=
  write_remaining_length_fuel length length

/-- Loop of `read_remaining_length` (`src/smart_adapter.rs` lines 214-238):
each byte contributes its low 7 bits times the current multiplier; a clear
high bit terminates; after the multiplier exceeds `128^3` a further
continuation byte is `"Invalid remaining length"`.  Returns
`(value, bytes_consumed, remaining stream)`; an empty stream is a failed
`read_exact` (`connectionClosed`). -/
def read_remaining_length_aux : List Nat → Nat → Nat → Nat →
    Except AdapterError (Nat × Nat × List Nat)
  | [], _, _, _ => .error .connectionClosed
  | b :: input, multiplier, value, consumed =>
    if b &&& 128 = 0 then
      .ok (value + (b &&& 127) * multiplier, consumed + 1, input)
    else if multiplier * 128 > 128 * 128 * 128 then
      .error .invalidRemainingLength
    else
      read_remaining_length_aux input (multiplier * 128)
        (value + (b &&& 127) * multiplier) (consumed + 1)

/-- `read_remaining_length`: decode the variable-length integer at the head
of `input`, returning the value and the number of bytes consumed. -/
def read_remaining_length (input : List Nat) : Except AdapterError (Nat × Nat) :=
  (read_remaining_length_aux input 1 0 0).map fun r => (r.1, r.2.1)

/-- `u16::from_be_bytes([payload[0], payload[1]]) as usize`
(`src/smart_adapter.rs` line 116, `src/mqtt_adapter.rs` line 61). -/
def protocol_name_len (payload : List Nat) : Nat :=
  payload.getD 0 0 * 256 + payload.getD 1 0

/-- `detect_and_convert_protocol` (`src/smart_adapter.rs` lines 107-164):
length guards, extraction of `(protocol_name, protocol_level)`, and the
three-way match, rewriting an `("MQIsdp", 3)` handshake to the
`("MQTT", 4)` shape with the suffix copied verbatim. -/
def detect_and_convert_protocol (payload : List Nat) :
    Except AdapterError (MqttVersion × List Nat) :=
  if payload.length < 8 then
    .error .connectTooShort
  else if payload.length < 2 + protocol_name_len payload + 1 then
    .error .invalidConnect
  else if (payload.drop 2).take (protocol_name_len payload) = MQIsdp_name ∧
      payload.getD (2 + protocol_name_len payload) 0 = 3 then
    .ok (MqttVersion.V310,
      [0, 4] ++ MQTT_name ++ [4] ++ payload.drop (2 + protocol_name_len payload + 1))
  else if (payload.drop 2).take (protocol_name_len payload) = MQTT_name ∧
      payload.getD (2 + protocol_name_len payload) 0 = 4 then
    .ok (MqttVersion.V311, payload)
  else if (payload.drop 2).take (protocol_name_len payload) = MQTT_name ∧
      payload.getD (2 + protocol_name_len payload) 0 = 5 then
    .ok (MqttVersion.V500, payload)
  else
    .error (.unknownProtocol ((payload.drop 2).take (protocol_name_len payload))
      (payload.getD (2 + protocol_name_len payload) 0))

/-- The handshake decision of `handle_smart_client`
(`src/smart_adapter.rs` lines 51-94) as a function of the header byte and the
payload: the `first_byte >> 4 != 1` check, then `detect_and_convert_protocol`;
the result is the payload forwarded to the broker. -/
def smart_handshake (first_byte : Nat) (payload : List Nat) :
    Except AdapterError (List Nat) :=
  if first_byte >>> 4 ≠ 1 then .error .expectedConnect
  else (detect_and_convert_protocol payload).map fun r => r.2

/-- The payload-classification part of `handle_mqtt31_client`
(`src/mqtt_adapter.rs` lines 52-102).  The term `payload[8]?` models the Rust
index expression `payload[8]` (line 68): `none` is the out-of-bounds panic.
The slice `&payload[9..]` (line 78) is only reached when index 8 exists, so
`payload.drop 9` coincides with it there.  The result is the payload
forwarded to the broker. -/
def mqtt31_classify (payload : List Nat) :
    Option (Except AdapterError (List Nat)) :=
  if payload.length < 8 then
    some (.error .invalidConnect)
  else if protocol_name_len payload = 6 ∧ (payload.drop 2).take 6 = MQIsdp_name then
    match payload[8]? with
    | none => none
    | some lvl =>
      if lvl = 3 then
        some (.ok ([0, 4] ++ MQTT_name ++ [4] ++ payload.drop 9))
      else
        some (.error (.unknownMQIsdpVersion lvl))
  else
    some (.ok payload)

/-- The handshake decision of `handle_mqtt31_client`
(`src/mqtt_adapter.rs` lines 28-102) as a function of the header byte and the
payload: the `first_byte >> 4 != 1` check (line 37), then the classification
above. -/
def handle_mqtt31_handshake (first_byte : Nat) (payload : List Nat) :
    Option (Except AdapterError (List Nat)) :=
  if first_byte >>> 4 ≠ 1 then some (.error .expectedConnect)
  else mqtt31_classify payload

/-- Whether a classification outcome reached the `(magic, level)` match of
`detect_and_convert_protocol` (i.e. it is a success or the match's own
fall-through `unknownProtocol` error, rather than a length-guard error). -/
def proceeds_to_match : Except AdapterError (MqttVersion × List Nat) → Bool
  | .ok _ => true
  | .error (.unknownProtocol _ _) => true
  | .error _ => false

/-- `read_exact` into a buffer of `n` bytes: consume exactly `n` bytes of
the stream or fail. -/
def takeExact (n : Nat) (input : List Nat) : Option (List Nat × List Nat) :=
  if n ≤ input.length then some (input.take n, input.drop n) else none

/-- The externally visible steps a connection handler performs, at the
granularity of the spec's step list: reads from the client socket, the
classification, the backend connect, and the writes to the backend socket. -/
inductive Event
  | readHeader
  | readLength
  | readPayload
  | classify
  | connectBackend
  | writeHeader
  | writeLength
  | writePayload
  | flushBackend
deriving DecidableEq

/-- The sequence of steps `handle_smart_client` (`src/smart_adapter.rs`
lines 42-103) performs on a given client byte stream, stopping at the first
failing step; `backend_ok` tells whether the `TcpStream::connect` to the
broker (line 85) succeeds.  An event is recorded when its step completes. -/
def handle_smart_trace (backend_ok : Bool) (input : List Nat) : List Event :=
  match takeExact 1 input with
  | none => []
  | some (hd, rest1) =>
    Event.readHeader ::
    if hd.getD 0 0 >>> 4 ≠ 1 then []
    else
      match read_remaining_length_aux rest1 1 0 0 with
      | .error _ => []
      | .ok (len, _, rest2) =>
        Event.readLength ::
        match takeExact len rest2 with
        | none => []
        | some (payload, _) =>
          Event.readPayload ::
          match detect_and_convert_protocol payload with
          | .error _ => []
          | .ok _ =>
            Event.classify ::
            Event.connectBackend ::
            if backend_ok then
              [Event.writeHeader, Event.writeLength, Event.writePayload,
                Event.flushBackend]
            else []

/-- The sequence of steps `handle_mqtt31_client` (`src/mqtt_adapter.rs`
lines 28-103) performs on a given client byte stream: the broker connection
is opened first (line 30), before anything is read from the client. -/
def handle_mqtt31_trace (backend_ok : Bool) (input : List Nat) : List Event :=
  Event.connectBackend ::
  if backend_ok = false then []
  else
    match takeExact 1 input with
    | none => []
    | some (hd, rest1) =>
      Event.readHeader ::
      if hd.getD 0 0 >>> 4 ≠ 1 then []
      else
        match read_remaining_length_aux rest1 1 0 0 with
        | .error _ => []
        | .ok (len, _, rest2) =>
          Event.readLength ::
          match takeExact len rest2 with
          | none => []
          | some (payload, _) =>
            Event.readPayload ::
            match mqtt31_classify payload with
            | none => []
            | some (.error _) => []
            | some (.ok _) =>
              [Event.classify, Event.writeHeader, Event.writeLength,
                Event.writePayload, Event.flushBackend]

/-! ## Helper lemmas -/

/-- The bit operations of the length codec, specialised to byte digits:
for `x < 128`, masking with 127 is the identity, the high bit is clear, and
after ORing in the high bit the low 7 bits are unchanged and the high bit is
set. -/
lemma byte_facts : ∀ x, x < 128 →
    x &&& 127 = x ∧ x &&& 128 = 0 ∧
    (x ||| 128) &&& 127 = x ∧ (x ||| 128) &&& 128 = 128 := by decide

/-- Fuel irrelevance for `write_remaining_length_fuel`: any fuel of at least
`n` computes the same byte sequence. -/
lemma write_remaining_length_fuel_congr : ∀ n f, n ≤ f →
    write_remaining_length_fuel f n = write_remaining_length_fuel n n := by
  intro n
  induction n using Nat.strong_induction_on with
  | _ n ih =>
    intro f hf
    match n, f with
    | 0, 0 => rfl
    | 0, f + 1 => simp [write_remaining_length_fuel]
    | m + 1, f + 1 =>
      have hq : (m + 1) / 128 < m + 1 := Nat.div_lt_self (Nat.succ_pos m) (by omega)
      simp only [write_remaining_length_fuel]
      by_cases h : 0 < (m + 1) / 128
      · rw [if_pos h, if_pos h, ih _ hq f (by omega), ih _ hq m (by omega)]
      · rw [if_neg h, if_neg h]

/-- The loop equation of `write_remaining_length`. -/
lemma write_remaining_length_eq (n : Nat) :
    write_remaining_length n =
      if 0 < n / 128 then
        (n % 128 ||| 128) :: write_remaining_length (n / 128)
      else [n % 128] := by
  unfold write_remaining_length
  match n with
  | 0 => simp [write_remaining_length_fuel]
  | m + 1 =>
    have hq : (m + 1) / 128 < m + 1 := Nat.div_lt_self (Nat.succ_pos m) (by omega)
    simp only [write_remaining_length_fuel]
    by_cases h : 0 < (m + 1) / 128
    · rw [if_pos h, if_pos h, write_remaining_length_fuel_congr _ m (by omega)]
    · rw [if_neg h, if_neg h]

/-- Running the decode loop over the encoding of `v`, against an arbitrary
trailing stream, from a multiplier that is still a power of 128 small enough
that the 4-byte guard cannot fire. -/
lemma read_aux_on_encode :
    ∀ n v k value consumed (rest : List Nat), v < 128 ^ n → n + k ≤ 4 →
      read_remaining_length_aux (write_remaining_length v ++ rest)
          (128 ^ k) value consumed =
        .ok (value + v * 128 ^ k,
          consumed + (write_remaining_length v).length, rest) := by
  intro n
  induction n with
  | zero =>
    intro v k value consumed rest hv _
    have hv0 : v = 0 := by omega
    subst hv0
    have hw : write_remaining_length 0 = [0] := rfl
    rw [hw]
    simp [read_remaining_length_aux]
  | succ n ih =>
    intro v k value consumed rest hv hk
    rw [write_remaining_length_eq v]
    by_cases h : 0 < v / 128
    · rw [if_pos h]
      have hv1 : 128 ≤ v := by
        by_contra hc
        push_neg at hc
        rw [Nat.div_eq_of_lt hc] at h
        exact absurd h (lt_irrefl 0)
      have hn1 : 1 ≤ n := by
        by_contra hc
        push_neg at hc
        have hn0 : n = 0 := by omega
        subst hn0
        simp at hv
        omega
      obtain ⟨-, -, f3, f4⟩ := byte_facts (v % 128) (Nat.mod_lt v (by omega))
      rw [List.cons_append]
      rw [read_remaining_length_aux]
      rw [if_neg (by rw [f4]; omega)]
      have hmul : ¬ (128 ^ k * 128 > 128 * 128 * 128) := by
        have hk2 : k + 1 ≤ 3 := by omega
        have : 128 ^ k * 128 ≤ 128 ^ 3 := by
          calc 128 ^ k * 128 = 128 ^ (k + 1) := (pow_succ 128 k).symm
            _ ≤ 128 ^ 3 := Nat.pow_le_pow_right (by omega) hk2
        have h3 : (128 : Nat) ^ 3 = 128 * 128 * 128 := by norm_num
        omega
      rw [if_neg hmul, f3]
      have hdiv : v / 128 < 128 ^ n := by
        rw [Nat.div_lt_iff_lt_mul (by omega : (0 : Nat) < 128)]
        calc v < 128 ^ (n + 1) := hv
          _ = 128 ^ n * 128 := pow_succ 128 n
      have hrec := ih (v / 128) (k + 1) (value + v % 128 * 128 ^ k)
        (consumed + 1) rest hdiv (by omega)
      rw [pow_succ] at hrec
      rw [hrec]
      have harith : value + v % 128 * 128 ^ k + v / 128 * (128 ^ k * 128) =
          value + v * 128 ^ k := by
        have hmd : v % 128 + 128 * (v / 128) = v := Nat.mod_add_div v 128
        calc value + v % 128 * 128 ^ k + v / 128 * (128 ^ k * 128)
            = value + (v % 128 + 128 * (v / 128)) * 128 ^ k := by ring
          _ = value + v * 128 ^ k := by rw [hmd]
      rw [harith]
      simp [Nat.add_assoc, Nat.add_comm 1]
    · rw [if_neg h]
      have hv128 : v < 128 := by
        by_contra hc
        push_neg at hc
        exact h (Nat.div_pos hc (by omega))
      rw [Nat.mod_eq_of_lt hv128]
      obtain ⟨f1, f2, -, -⟩ := byte_facts v hv128
      rw [List.cons_append, read_remaining_length_aux, if_pos f2, f1]
      simp

/-- In `detect_and_convert_protocol`, once the truncation guard has passed,
a successful comparison of the extracted magic with a literal byte string
forces `protocol_name_len` to be that string's length. -/
lemma protocol_name_len_of_take_eq {payload L : List Nat}
    (hguard : ¬ payload.length < 2 + protocol_name_len payload + 1)
    (htake : (payload.drop 2).take (protocol_name_len payload) = L) :
    protocol_name_len payload = L.length := by
  have hl := congrArg List.length htake
  simp only [List.length_take, List.length_drop] at hl
  omega

/-! ## Claim theorems -/

/-- Claim C1: for every value `v` in `[0, 2^28 - 1]`, decoding
(`read_remaining_length`) the byte sequence produced by encoding `v`
(`write_remaining_length`) succeeds and yields exactly `v`, consuming exactly
`(write_remaining_length v).length` bytes, whatever bytes follow the
encoding on the stream. -/
theorem length_codec_roundtrip (v : Nat) (hv : v < 2 ^ 28) (rest : List Nat) :
    read_remaining_length (write_remaining_length v ++ rest) =
      .ok (v, (write_remaining_length v).length) := by
  have h128 : v < 128 ^ 4 := by
    have : (128 : Nat) ^ 4 = 2 ^ 28 := by norm_num
    omega
  have h := read_aux_on_encode 4 v 0 0 0 rest h128 (by omega)
  rw [pow_zero] at h
  simp [read_remaining_length, h, Except.map]

/-- Witness for C1 at `v = 200`: the two-byte encoding decodes back to 200
consuming both bytes. -/
theorem length_codec_roundtrip_witness :
    read_remaining_length (write_remaining_length 200 ++ []) = .ok (200, 2) := by
  have h := length_codec_roundtrip 200 (by decide) []
  have h2 : (write_remaining_length 200).length = 2 := by decide
  rw [h2] at h
  exact h

/-- Claim C9: encoding boundary behaviour — `write_remaining_length` produces
exactly 1 byte for 127, 2 bytes for 128 and 16383, 3 bytes for 16384; and
`read_remaining_length` fails with the "Invalid remaining length" error on
any stream whose first four bytes all have the high bit set (a 5th
continuation byte would be required). -/
theorem length_codec_boundary :
    (write_remaining_length 127).length = 1 ∧
    (write_remaining_length 128).length = 2 ∧
    (write_remaining_length 16383).length = 2 ∧
    (write_remaining_length 16384).length = 3 ∧
    ∀ b0 b1 b2 b3 (rest : List Nat),
      b0 &&& 128 ≠ 0 → b1 &&& 128 ≠ 0 → b2 &&& 128 ≠ 0 → b3 &&& 128 ≠ 0 →
      read_remaining_length (b0 :: b1 :: b2 :: b3 :: rest) =
        .error .invalidRemainingLength := by
  refine ⟨by decide, by decide, by decide, by decide, ?_⟩
  intro b0 b1 b2 b3 rest h0 h1 h2 h3
  simp only [read_remaining_length, read_remaining_length_aux]
  rw [if_neg h0, if_neg (by norm_num), if_neg h1, if_neg (by norm_num),
    if_neg h2, if_neg (by norm_num), if_neg h3, if_pos (by norm_num)]
  rfl

/-- Witness for C9 at the all-continuation stream `[128, 128, 128, 128]`. -/
theorem length_codec_boundary_witness :
    read_remaining_length [128, 128, 128, 128] = .error .invalidRemainingLength :=
  length_codec_boundary.2.2.2.2 128 128 128 128 []
    (by decide) (by decide) (by decide) (by decide)

/-- Claim C2: every handshake payload whose first 8 bytes are
`[0, 6, 'M', 'Q', 'I', 's', 'd', 'p']` followed by level byte 3 classifies as
`MqttVersion.V310` (the spec's `Dialect::LegacyV1`), and the rewritten
payload's first 7 bytes are exactly `[0, 4, 'M', 'Q', 'T', 'T', 4]`. -/
theorem legacy_classification_deterministic (rest : List Nat) :
    detect_and_convert_protocol
        (0 :: 6 :: 77 :: 81 :: 73 :: 115 :: 100 :: 112 :: 3 :: rest) =
      .ok (MqttVersion.V310, 0 :: 4 :: 77 :: 81 :: 84 :: 84 :: 4 :: rest) ∧
    (0 :: 4 :: 77 :: 81 :: 84 :: 84 :: 4 :: rest).take 7 =
      [0, 4, 77, 81, 84, 84, 4] := by
  constructor
  · have hn : protocol_name_len
        (0 :: 6 :: 77 :: 81 :: 73 :: 115 :: 100 :: 112 :: 3 :: rest) = 6 := by
      simp [protocol_name_len]
    rw [detect_and_convert_protocol, hn]
    rw [if_neg (by simp), if_neg (by simp)]
    rw [if_pos (by refine ⟨?_, ?_⟩ <;> simp [MQIsdp_name])]
    simp [MQTT_name]
  · rfl

/-- Claim C5: suffix preservation of the legacy rewrite — whenever
`detect_and_convert_protocol` classifies a payload `P` as `MqttVersion.V310`
(the legacy `("MQIsdp", 3)` dialect), the rewritten payload's bytes from
offset 7 onward equal `P`'s bytes from offset 9 onward, unchanged. -/
theorem legacy_rewrite_suffix_preserved (P out : List Nat)
    (h : detect_and_convert_protocol P = .ok (MqttVersion.V310, out)) :
    out.drop 7 = P.drop 9 := by
  by_cases h8 : P.length < 8
  · rw [detect_and_convert_protocol, if_pos h8] at h
    exact absurd h (by simp)
  rw [detect_and_convert_protocol, if_neg h8] at h
  by_cases htr : P.length < 2 + protocol_name_len P + 1
  · rw [if_pos htr] at h
    exact absurd h (by simp)
  rw [if_neg htr] at h
  by_cases hleg : (P.drop 2).take (protocol_name_len P) = MQIsdp_name ∧
      P.getD (2 + protocol_name_len P) 0 = 3
  · rw [if_pos hleg] at h
    have hn : protocol_name_len P = 6 := by
      have := protocol_name_len_of_take_eq htr hleg.1
      simpa [MQIsdp_name] using this
    rw [hn] at h
    simp only [Except.ok.injEq, Prod.mk.injEq, true_and] at h
    subst h
    simp [MQTT_name]
  rw [if_neg hleg] at h
  by_cases h4 : (P.drop 2).take (protocol_name_len P) = MQTT_name ∧
      P.getD (2 + protocol_name_len P) 0 = 4
  · rw [if_pos h4] at h
    simp at h
  rw [if_neg h4] at h
  by_cases h5 : (P.drop 2).take (protocol_name_len P) = MQTT_name ∧
      P.getD (2 + protocol_name_len P) 0 = 5
  · rw [if_pos h5] at h
    simp at h
  · rw [if_neg h5] at h
    exact absurd h (by simp)

/-- Witness for C5: a legacy payload carrying connection flags `0x02` and
keep-alive `0x003C` after the level byte. -/
theorem legacy_rewrite_suffix_preserved_witness :
    ([0, 4, 77, 81, 84, 84, 4, 2, 0, 60] : List Nat).drop 7 =
      ([0, 6, 77, 81, 73, 115, 100, 112, 3, 2, 0, 60] : List Nat).drop 9 :=
  legacy_rewrite_suffix_preserved
    [0, 6, 77, 81, 73, 115, 100, 112, 3, 2, 0, 60]
    [0, 4, 77, 81, 84, 84, 4, 2, 0, 60] (by decide)

/-- Claim C7: a payload that passes both length guards but whose extracted
`(magic, level)` pair is none of `("MQIsdp", 3)`, `("MQTT", 4)`,
`("MQTT", 5)` makes `detect_and_convert_protocol` fail with the
"Unknown MQTT protocol" error carrying the observed magic and level, and no
payload is produced. -/
theorem unknown_dialect_rejected (payload : List Nat)
    (h8 : ¬ payload.length < 8)
    (htr : ¬ payload.length < 2 + protocol_name_len payload + 1)
    (hno : ¬ (((payload.drop 2).take (protocol_name_len payload) = MQIsdp_name ∧
        payload.getD (2 + protocol_name_len payload) 0 = 3) ∨
      ((payload.drop 2).take (protocol_name_len payload) = MQTT_name ∧
        payload.getD (2 + protocol_name_len payload) 0 = 4) ∨
      ((payload.drop 2).take (protocol_name_len payload) = MQTT_name ∧
        payload.getD (2 + protocol_name_len payload) 0 = 5))) :
    detect_and_convert_protocol payload =
      .error (.unknownProtocol
        ((payload.drop 2).take (protocol_name_len payload))
        (payload.getD (2 + protocol_name_len payload) 0)) := by
  rw [detect_and_convert_protocol, if_neg h8, if_neg htr,
    if_neg (fun hc => hno (Or.inl hc)),
    if_neg (fun hc => hno (Or.inr (Or.inl hc))),
    if_neg (fun hc => hno (Or.inr (Or.inr hc)))]

/-- Witness for C7: a payload with magic `"FOO"` and level 1 is rejected
with the observed magic and level. -/
theorem unknown_dialect_rejected_witness :
    detect_and_convert_protocol [0, 3, 70, 79, 79, 1, 0, 0] =
      .error (.unknownProtocol [70, 79, 79] 1) := by
  have h := unknown_dialect_rejected [0, 3, 70, 79, 79, 1, 0, 0]
    (by decide) (by decide) (by decide)
  simpa [protocol_name_len] using h

/-- Counterexample to claim C6: the payload `[0, 4, 'M', 'Q', 'T', 'T', 4]`
satisfies `payload.length ≥ 2 + name_len + 1` (7 = 2 + 4 + 1) yet
classification does not proceed to the magic/level match — it fails with the
earlier "CONNECT packet too short" guard (`payload.len() < 8`).  Also, the
payload `[0, 6, 77]` is shorter than `2 + name_len + 1` yet fails with the
too-short error rather than the truncation error. -/
theorem truncation_guard_counterexample :
    2 + protocol_name_len [0, 4, 77, 81, 84, 84, 4] + 1 ≤
      ([0, 4, 77, 81, 84, 84, 4] : List Nat).length ∧
    detect_and_convert_protocol [0, 4, 77, 81, 84, 84, 4] =
      .error .connectTooShort ∧
    proceeds_to_match (detect_and_convert_protocol [0, 4, 77, 81, 84, 84, 4]) =
      false ∧
    ([0, 6, 77] : List Nat).length < 2 + protocol_name_len [0, 6, 77] + 1 ∧
    detect_and_convert_protocol [0, 6, 77] ≠ .error .invalidConnect := by decide

/-- Claim C6 as amended: with `name_len` read as a big-endian u16 from the
first two bytes, `detect_and_convert_protocol` fails with the
"Invalid CONNECT packet" (truncation) error iff the payload is at least 8
bytes long and shorter than `2 + name_len + 1`; and every payload of length
at least 8 and at least `2 + name_len + 1` proceeds to the magic/level
match.  (Payloads shorter than 8 bytes fail earlier with the
"CONNECT packet too short" guard, whatever their declared name length.) -/
theorem truncation_guard_characterization (payload : List Nat) :
    (detect_and_convert_protocol payload = .error .invalidConnect ↔
      8 ≤ payload.length ∧
        payload.length < 2 + protocol_name_len payload + 1) ∧
    (8 ≤ payload.length → 2 + protocol_name_len payload + 1 ≤ payload.length →
      proceeds_to_match (detect_and_convert_protocol payload) = true) := by
  by_cases h8 : payload.length < 8
  · rw [detect_and_convert_protocol, if_pos h8]
    refine ⟨⟨fun h => absurd h (by simp), fun hc => by omega⟩, fun hc => by omega⟩
  rw [detect_and_convert_protocol, if_neg h8]
  by_cases htr : payload.length < 2 + protocol_name_len payload + 1
  · rw [if_pos htr]
    exact ⟨⟨fun _ => ⟨by omega, htr⟩, fun _ => rfl⟩, fun _ hc => by omega⟩
  rw [if_neg htr]
  constructor
  · constructor
    · intro h
      exfalso
      split at h
      · simp at h
      · split at h
        · simp at h
        · split at h
          · simp at h
          · simp at h
    · intro hc
      omega
  · intro _ _
    split
    · rfl
    split
    · rfl
    split
    · rfl
    · rfl

/-- Witness for the amended C6: a well-formed truncated payload
`[0, 6, 77, 81, 73, 115, 100, 112]` (8 bytes, declared name length 6, so
`2 + 6 + 1 = 9 > 8`) fails with the truncation error. -/
theorem truncation_guard_characterization_witness :
    detect_and_convert_protocol [0, 6, 77, 81, 73, 115, 100, 112] =
      .error .invalidConnect :=
  (truncation_guard_characterization [0, 6, 77, 81, 73, 115, 100, 112]).1.mpr
    (by decide)

/-- Counterexample to claim C3: the two adapters do not accept exactly the
same first-frame inputs.  On the 8-byte payload with name `"FOO"` (level 0),
the smart adapter's classifier fails with the unknown-protocol error while
the two-port adapter's handler accepts the frame and forwards the payload
unchanged. -/
theorem adapters_not_equivalent :
    smart_handshake 16 [0, 3, 70, 79, 79, 0, 0, 0] =
      .error (.unknownProtocol [70, 79, 79] 0) ∧
    handle_mqtt31_handshake 16 [0, 3, 70, 79, 79, 0, 0, 0] =
      some (.ok [0, 3, 70, 79, 79, 0, 0, 0]) := by decide

/-- Claim C3 as amended: the inclusion that does hold.  Every first-frame
input the smart adapter's classifier accepts is also accepted by the
two-port adapter's handler, with a byte-identical forwarded payload (the
converse fails: `handle_mqtt31_handshake` also accepts inputs that
`smart_handshake` rejects, passing them through unchanged). -/
theorem smart_accept_implies_mqtt31_accept (first_byte : Nat)
    (payload out : List Nat)
    (h : smart_handshake first_byte payload = .ok out) :
    handle_mqtt31_handshake first_byte payload = some (.ok out) := by
  unfold smart_handshake at h
  unfold handle_mqtt31_handshake
  by_cases hf : first_byte >>> 4 ≠ 1
  · rw [if_pos hf] at h
    exact absurd h (by simp)
  rw [if_neg hf] at h
  rw [if_neg hf]
  rw [detect_and_convert_protocol] at h
  unfold mqtt31_classify
  by_cases h8 : payload.length < 8
  · rw [if_pos h8] at h
    exact absurd h (by simp [Except.map])
  rw [if_neg h8] at h
  rw [if_neg h8]
  by_cases htr : payload.length < 2 + protocol_name_len payload + 1
  · rw [if_pos htr] at h
    exact absurd h (by simp [Except.map])
  rw [if_neg htr] at h
  by_cases hleg : (payload.drop 2).take (protocol_name_len payload) = MQIsdp_name ∧
      payload.getD (2 + protocol_name_len payload) 0 = 3
  · rw [if_pos hleg] at h
    have hn : protocol_name_len payload = 6 := by
      have := protocol_name_len_of_take_eq htr hleg.1
      simpa [MQIsdp_name] using this
    have htake : (payload.drop 2).take 6 = MQIsdp_name := by
      rw [← hn]
      exact hleg.1
    rw [if_pos ⟨hn, htake⟩]
    have hlt : 8 < payload.length := by omega
    have hsome : payload[8]? = some payload[8] := List.getElem?_eq_getElem hlt
    rw [hsome]
    have hlvl : payload[8] = 3 := by
      have h2 := hleg.2
      rw [hn] at h2
      have hg : payload.getD 8 0 = payload[8] := by
        rw [List.getD_eq_getElem?_getD, List.getElem?_eq_getElem hlt]
        rfl
      rw [hg] at h2
      exact h2
    rw [hlvl]
    simp only [Except.map, Except.ok.injEq] at h
    rw [hn] at h
    have h9 : (2 + 6 + 1 : Nat) = 9 := by norm_num
    rw [h9] at h
    rw [← h]
    rfl
  rw [if_neg hleg] at h
  by_cases h4 : (payload.drop 2).take (protocol_name_len payload) = MQTT_name ∧
      payload.getD (2 + protocol_name_len payload) 0 = 4
  · rw [if_pos h4] at h
    have hn : protocol_name_len payload = 4 := by
      have := protocol_name_len_of_take_eq htr h4.1
      simpa [MQTT_name] using this
    rw [if_neg (fun hc => by omega)]
    simp only [Except.map, Except.ok.injEq] at h
    rw [← h]
  rw [if_neg h4] at h
  by_cases h5 : (payload.drop 2).take (protocol_name_len payload) = MQTT_name ∧
      payload.getD (2 + protocol_name_len payload) 0 = 5
  · rw [if_pos h5] at h
    have hn : protocol_name_len payload = 4 := by
      have := protocol_name_len_of_take_eq htr h5.1
      simpa [MQTT_name] using this
    rw [if_neg (fun hc => by omega)]
    simp only [Except.map, Except.ok.injEq] at h
    rw [← h]
  · rw [if_neg h5] at h
    exact absurd h (by simp [Except.map])

/-- Witness for the amended C3 on a legacy handshake both adapters rewrite. -/
theorem smart_accept_implies_mqtt31_accept_witness :
    handle_mqtt31_handshake 16 [0, 6, 77, 81, 73, 115, 100, 112, 3, 2, 0, 60] =
      some (.ok [0, 4, 77, 81, 84, 84, 4, 2, 0, 60]) :=
  smart_accept_implies_mqtt31_accept 16
    [0, 6, 77, 81, 73, 115, 100, 112, 3, 2, 0, 60]
    [0, 4, 77, 81, 84, 84, 4, 2, 0, 60] (by decide)

/-- Claim C4: the in-bounds property fails in the code.  The 8-byte payload
`[0, 6, 'M', 'Q', 'I', 's', 'd', 'p']` is admitted by the
`payload.len() >= 8` guard and takes the `name_len == 6 && magic == MQIsdp`
branch, where the Rust expression `payload[8]` indexes out of bounds and
panics (modelled by `none`). -/
theorem mqtt31_panics_on_minimal_legacy_prefix :
    handle_mqtt31_handshake 16 [0, 6, 77, 81, 73, 115, 100, 112] = none ∧
    8 ≤ ([0, 6, 77, 81, 73, 115, 100, 112] : List Nat).length := by decide

/-- Counterexample to claim C8: on the two-port adapter the backend
connection is the very first step of the handler — before the header byte,
frame length or payload have been read from the client — so the handler does
not perform the stated order "read, classify, then connect".  Shown on the
concrete client stream `[0x10, 0x00]`. -/
theorem mqtt31_connects_before_reading :
    (handle_mqtt31_trace true [16, 0]).head? = some Event.connectBackend ∧
    Event.readPayload ∈ handle_mqtt31_trace true [16, 0] ∧
    handle_mqtt31_trace true [16, 0] =
      [Event.connectBackend, Event.readHeader, Event.readLength,
        Event.readPayload] := by decide

/-- Claim C8 as amended: the smart adapter's handler does perform its steps
in the stated order — every trace it can produce is a prefix of
header-read, length-decode, payload-read, classify, backend-connect, then
the backend writes and flush — whereas the two-port adapter's handler always
opens the backend connection first, before reading anything from the
client. -/
theorem handler_step_order (backend_ok : Bool) (input : List Nat) :
    (∃ t, handle_smart_trace backend_ok input ++ t =
      [Event.readHeader, Event.readLength, Event.readPayload, Event.classify,
        Event.connectBackend, Event.writeHeader, Event.writeLength,
        Event.writePayload, Event.flushBackend]) ∧
    (handle_mqtt31_trace backend_ok input).head? = some Event.connectBackend := by
  constructor
  · unfold handle_smart_trace
    repeat' split
    all_goals exact ⟨_, rfl⟩
  · unfold handle_mqtt31_trace
    rfl
